import Mathlib

/-!
Verification of the appointment-availability computation of the hospital
management system (`appointment/views.py`, function `get_available_slots`).

Times of day are embedded as minutes from midnight (`Nat`).  All three slot
generation loops of the source (the emergency loop at lines 253-275, the
on-leave loop at lines 335-364 and the standard loop at lines 429-454) share
the same shape: starting from the window's opening time, candidates of one
granularity step are produced, the final one truncated at the closing time;
a candidate survives unless it strictly overlaps a booked appointment or
(on the leave path) the leave interval.  They are embedded below as one
function `genSlots`, parameterised by window, granularity, booked list and
blackout list; each source loop is an instantiation (the loops that do not
consult leave take an empty blackout list).

The loop is written with an explicit fuel argument equal to its termination
measure `close - start`, so that it is structurally recursive and evaluates
inside the kernel; with a positive granularity the fuel is never exhausted
(lemma `genSlotsAux_fuel` material below), matching the source's `while`
loop exactly.
-/

set_option maxRecDepth 20000

namespace HMS

/-- A half-open interval of minutes within one day.  Embeds the
`(start_time, end_time)` pairs of `Appointment` rows and of
`DoctorLeaveRequest` leave times used by `get_available_slots`. -/
structure Interval where
  start : Nat
  stop : Nat
  deriving Repr, DecidableEq

/-- An emitted availability slot: the dict
`{'start': .., 'end': .., 'display': ..}` that the source appends to
`available_slots`. -/
structure Slot where
  start : Nat
  stop : Nat
  display : String
  deriving Repr, DecidableEq

/-- Zero padding of `strftime`: two-digit rendering of a number. -/
def pad2 (n : Nat) : String :=
  if n < 10 then "0" ++ toString n else toString n

/-- `strftime('%H:%M')` on a minutes-from-midnight value. -/
def fmtTime (t : Nat) : String :=
  pad2 (t / 60) ++ ":" ++ pad2 (t % 60)

/-- Builds the slot dict appended by the source: the emergency loop labels
`f"{start} - {end} (Emergency)"` (line 272), the regular loops label
`f"{start} - {end}"` (lines 361, 451). -/
def mkSlot (s e : Nat) (emerg : Bool) : Slot :=
  { start := s, stop := e,
    display :=
      if emerg then fmtTime s ++ " - " ++ fmtTime e ++ " (Emergency)"
      else fmtTime s ++ " - " ++ fmtTime e }

/-- The source's overlap test
`slot_start < appt_end and slot_end > appt_start`
(views.py lines 264, 343, 353, 404, 442). -/
def slotOverlaps (s e : Nat) (iv : Interval) : Bool :=
  decide (s < iv.stop) && decide (e > iv.start)

/-- The inner `for appt in existing_appointments` scan: the candidate is
excluded as soon as one interval strictly overlaps it. -/
def overlapsAny (s e : Nat) (ivs : List Interval) : Bool :=
  ivs.any (fun iv => slotOverlaps s e iv)

/-- The slot generation `while` loop, fuelled.  One unfolding performs one
iteration of the source loop: truncate the candidate end at the closing
time (`if slot_end > end_datetime: slot_end = end_datetime`), skip the
candidate when it overlaps the leave interval (leave path, lines 341-345)
or an existing appointment (lines 258-266 / 347-355 / 436-445), otherwise
append it, and continue from `slot_end`. -/
def genSlotsAux (fuel : Nat) (s close gran : Nat)
    (booked blackout : List Interval) (emerg : Bool) : List Slot :=
  match fuel with
  | 0 => []
  | fuel + 1 =>
    if s < close then
      let e := min (s + gran) close
      if overlapsAny s e blackout then
        genSlotsAux fuel e close gran booked blackout emerg
      else if overlapsAny s e booked then
        genSlotsAux fuel e close gran booked blackout emerg
      else
        mkSlot s e emerg :: genSlotsAux fuel e close gran booked blackout emerg
    else []

/-- The slot generation loop: fuel `close - s` bounds the iteration count
whenever the granularity is positive (each iteration advances the cursor by
at least one minute), so this is exactly the source's `while slot_start <
end_datetime` loop. -/
def genSlots (s close gran : Nat)
    (booked blackout : List Interval) (emerg : Bool) : List Slot :=
  genSlotsAux (close - s) s close gran booked blackout emerg

/-- Emergency window opening: `datetime.time(0, 0)` (line 236). -/
def emergencyOpen : Nat := 0

/-- Emergency window closing: `datetime.time(23, 59)` (line 237). -/
def emergencyClose : Nat := 23 * 60 + 59

/-- Emergency granularity: 15 minutes (line 254). -/
def emergencyGran : Nat := 15

/-- Regular window opening: `datetime.time(8, 0)` (line 305). -/
def regularOpen : Nat := 8 * 60

/-- Regular window closing: `datetime.time(22, 0)` (line 306). -/
def regularClose : Nat := 22 * 60

/-- Regular granularity: 30 minutes (lines 336, 430). -/
def regularGran : Nat := 30

/-- Start of the synthesized emergency fallback slot (lines 283-286): the
hour is kept and the minute is rounded down to a multiple of 15,
`current_minute = (now.minute // 15) * 15`. -/
def fallbackStart (nowMin : Nat) : Nat :=
  nowMin / 60 * 60 + nowMin % 60 / 15 * 15

/-- The synthesized emergency fallback slot (lines 287-295): 15 minutes
long; its end is obtained through `datetime + timedelta(...).time()`, which
wraps past midnight, hence the reduction modulo 1440. -/
def fallbackSlot (nowMin : Nat) : Slot :=
  mkSlot (fallbackStart nowMin) ((fallbackStart nowMin + 15) % 1440) true

/-- The emergency branch of `get_available_slots` (lines 234-301): run the
15-minute loop over the full day against the booked appointments (leave is
never consulted on this branch), and if no slot survived, synthesize the
fallback slot - but only when the requested date equals the current date
(`if date == now.date():`, line 282). -/
def emergencyAvailable (booked : List Interval) (dateIsToday : Bool)
    (nowMin : Nat) : List Slot :=
  let slots := genSlots emergencyOpen emergencyClose emergencyGran booked [] true
  if slots.isEmpty then
    if dateIsToday then [fallbackSlot nowMin] else []
  else slots

/-- The availability computation of `get_available_slots` for the
emergency branch and for the standard-hours branches: on the leave path
the blackout list holds the approved leave interval (lines 325-364), on
the no-leave path it is empty (lines 420-454).  The per-weekday
`DoctorAvailability` branch (lines 372-418) runs the same loop over the
doctor's own windows and is outside the claims treated here. -/
def availableSlots (booked blackout : List Interval) (emerg dateIsToday : Bool)
    (nowMin : Nat) : List Slot :=
  if emerg then emergencyAvailable booked dateIsToday nowMin
  else genSlots regularOpen regularClose regularGran booked blackout false

/-- The start of the candidate sub-interval number `k` of a window opening
at `s` with granularity `gran`. -/
def candStart (s gran k : Nat) : Nat := s + gran * k

/-- The end of candidate `k`: one granularity step, truncated at the
closing time. -/
def candStop (s close gran k : Nat) : Nat := min (candStart s gran k + gran) close

/-- Validation error of the spec's calculator (spec section 7). -/
inductive SlotError where
  | invalidWindow
  | invalidInterval
  deriving Repr, DecidableEq

/-- A day's working window as the spec's calculator receives it. -/
structure WorkWindow where
  openT : Nat
  closeT : Nat
  gran : Nat
  deriving Repr, DecidableEq

/-- Modelled from the spec: the validated pure calculator
`compute_available_slots(window, booked, blackout, emergency)` of spec
sections 4.1, 6 and 7 does not exist as a function in the repository - the
views hard-code always-valid windows and granularities, so the validation
layer (InvalidWindow for `open_time >= close_time` or non-positive
granularity, InvalidInterval for any interval with `start >= end`, both
detected before slot generation) is present only in the spec.  The
generation on the ok path follows spec section 4.1, reusing the loop
embedded from the source. -/
def compute_available_slots (w : WorkWindow) (booked blackout : List Interval)
    (emerg : Bool) (nowMin : Nat) : Except SlotError (List Slot) :=
  if w.closeT ≤ w.openT ∨ w.gran = 0 then .error .invalidWindow
  else if (booked ++ blackout).any (fun iv => decide (iv.stop ≤ iv.start)) then
    .error .invalidInterval
  else if emerg then
    let slots := genSlots emergencyOpen emergencyClose emergencyGran booked [] true
    .ok (if slots.isEmpty then [fallbackSlot nowMin] else slots)
  else
    .ok (genSlots w.openT w.closeT w.gran booked blackout false)

/-!
Characterization of the loop: its output is exactly the list of candidate
sub-intervals `[candStart k, candStop k)` that fit the window and strictly
overlap no blackout and no booked interval.
-/

theorem exists_nat_split (P : Nat → Prop) :
    (∃ k, P k) ↔ (P 0 ∨ ∃ k, P (k + 1)) := by
  constructor
  · rintro ⟨k, hk⟩
    cases k with
    | zero => exact Or.inl hk
    | succ k => exact Or.inr ⟨k, hk⟩
  · rintro (h | ⟨k, hk⟩)
    · exact ⟨0, h⟩
    · exact ⟨k + 1, hk⟩

theorem mem_genSlotsAux {close gran : Nat} {booked blackout : List Interval}
    {emerg : Bool} (hg : 0 < gran) :
    ∀ (fuel s : Nat), close - s ≤ fuel → ∀ sl : Slot,
      (sl ∈ genSlotsAux fuel s close gran booked blackout emerg ↔
        ∃ k, candStart s gran k < close ∧
          sl = mkSlot (candStart s gran k) (candStop s close gran k) emerg ∧
          overlapsAny (candStart s gran k) (candStop s close gran k) blackout = false ∧
          overlapsAny (candStart s gran k) (candStop s close gran k) booked = false) := by
  intro fuel
  induction fuel with
  | zero =>
    intro s hfs sl
    simp only [genSlotsAux, List.not_mem_nil, false_iff, not_exists]
    intro k hk
    have hks : s ≤ candStart s gran k := Nat.le_add_right _ _
    omega
  | succ fuel ih =>
    intro s hfs sl
    by_cases hs : s < close
    · have he : close - min (s + gran) close ≤ fuel := by omega
      have hrest := ih (min (s + gran) close) he sl
      have hshift : (sl ∈ genSlotsAux fuel (min (s + gran) close) close gran
            booked blackout emerg ↔
          ∃ k, candStart s gran (k + 1) < close ∧
            sl = mkSlot (candStart s gran (k + 1)) (candStop s close gran (k + 1)) emerg ∧
            overlapsAny (candStart s gran (k + 1)) (candStop s close gran (k + 1))
              blackout = false ∧
            overlapsAny (candStart s gran (k + 1)) (candStop s close gran (k + 1))
              booked = false) := by
        by_cases hsg : s + gran ≤ close
        · have hmin : min (s + gran) close = s + gran := by omega
          rw [hmin] at hrest ⊢
          rw [hrest]
          have harg : ∀ k, candStart (s + gran) gran k = candStart s gran (k + 1) := by
            intro k
            unfold candStart
            ring
          have hargStop : ∀ k,
              candStop (s + gran) close gran k = candStop s close gran (k + 1) := by
            intro k
            unfold candStop
            rw [harg k]
          constructor
          · rintro ⟨k, h1, h2, h3, h4⟩
            refine ⟨k, ?_, ?_, ?_, ?_⟩
            · rw [← harg k]; exact h1
            · rw [← harg k, ← hargStop k]; exact h2
            · rw [← harg k, ← hargStop k]; exact h3
            · rw [← harg k, ← hargStop k]; exact h4
          · rintro ⟨k, h1, h2, h3, h4⟩
            refine ⟨k, ?_, ?_, ?_, ?_⟩
            · rw [harg k]; exact h1
            · rw [harg k, hargStop k]; exact h2
            · rw [harg k, hargStop k]; exact h3
            · rw [harg k, hargStop k]; exact h4
        · have hmin : min (s + gran) close = close := by omega
          rw [hmin] at hrest ⊢
          rw [hrest]
          constructor
          · rintro ⟨k, h1, -⟩
            have : close ≤ candStart close gran k := Nat.le_add_right _ _
            omega
          · rintro ⟨k, h1, -⟩
            have : s + gran ≤ candStart s gran (k + 1) := by
              unfold candStart
              have : gran * 1 ≤ gran * (k + 1) :=
                Nat.mul_le_mul_left gran (by omega)
              omega
            omega
      have hzero0 : candStart s gran 0 = s := by
        unfold candStart
        omega
      have hzero1 : candStop s close gran 0 = min (s + gran) close := by
        unfold candStop
        rw [hzero0]
      rw [exists_nat_split]
      simp only [genSlotsAux, if_pos hs]
      rw [hzero0, hzero1]
      cases hbl : overlapsAny s (min (s + gran) close) blackout with
      | true =>
        rw [if_pos rfl]
        rw [hshift]
        constructor
        · intro h
          exact Or.inr h
        · rintro (⟨-, -, h3, -⟩ | h)
          · exact absurd h3 (by simp)
          · exact h
      | false =>
        rw [if_neg (by simp)]
        cases hbk : overlapsAny s (min (s + gran) close) booked with
        | true =>
          rw [if_pos rfl]
          rw [hshift]
          constructor
          · intro h
            exact Or.inr h
          · rintro (⟨-, -, -, h4⟩ | h)
            · exact absurd h4 (by simp)
            · exact h
        | false =>
          rw [if_neg (by simp)]
          rw [List.mem_cons, hshift]
          constructor
          · rintro (h | h)
            · exact Or.inl ⟨hs, h, rfl, rfl⟩
            · exact Or.inr h
          · rintro (⟨-, h2, -, -⟩ | h)
            · exact Or.inl h2
            · exact Or.inr h
    · simp only [genSlotsAux, if_neg hs, List.not_mem_nil, false_iff, not_exists]
      intro k hk
      have hks : s ≤ candStart s gran k := Nat.le_add_right _ _
      omega

theorem mem_genSlots {s close gran : Nat} {booked blackout : List Interval}
    {emerg : Bool} (hg : 0 < gran) (sl : Slot) :
    sl ∈ genSlots s close gran booked blackout emerg ↔
      ∃ k, candStart s gran k < close ∧
        sl = mkSlot (candStart s gran k) (candStop s close gran k) emerg ∧
        overlapsAny (candStart s gran k) (candStop s close gran k) blackout = false ∧
        overlapsAny (candStart s gran k) (candStop s close gran k) booked = false :=
  mem_genSlotsAux hg (close - s) s le_rfl sl

/-!
Structural facts about the emitted list: starts never go below the cursor,
consecutive slots are separated, every slot sits inside the window.
-/

theorem genSlotsAux_start_ge {close gran : Nat} {booked blackout : List Interval}
    {emerg : Bool} :
    ∀ (fuel s : Nat), ∀ sl ∈ genSlotsAux fuel s close gran booked blackout emerg,
      s ≤ sl.start := by
  intro fuel
  induction fuel with
  | zero =>
    intro s sl h
    simp [genSlotsAux] at h
  | succ fuel ih =>
    intro s sl h
    have hse : s ≤ min (s + gran) close → s ≤ sl.start →
        s ≤ sl.start := fun _ h => h
    simp only [genSlotsAux] at h
    split at h
    · have hmins : s ≤ min (s + gran) close := by omega
      split at h
      · exact le_trans hmins (ih _ sl h)
      · split at h
        · exact le_trans hmins (ih _ sl h)
        · rcases List.mem_cons.1 h with h | h
          · rw [h]
            exact le_refl _
          · exact le_trans hmins (ih _ sl h)
    · simp at h

theorem genSlotsAux_pairwise {close gran : Nat} {booked blackout : List Interval}
    {emerg : Bool} :
    ∀ (fuel s : Nat),
      (genSlotsAux fuel s close gran booked blackout emerg).Pairwise
        (fun a b => a.stop ≤ b.start) := by
  intro fuel
  induction fuel with
  | zero =>
    intro s
    simp [genSlotsAux]
  | succ fuel ih =>
    intro s
    simp only [genSlotsAux]
    split
    · split
      · exact ih _
      · split
        · exact ih _
        · refine List.Pairwise.cons ?_ (ih _)
          intro b hb
          exact genSlotsAux_start_ge fuel (min (s + gran) close) b hb
    · simp

theorem genSlots_pairwise {s close gran : Nat} {booked blackout : List Interval}
    {emerg : Bool} :
    (genSlots s close gran booked blackout emerg).Pairwise
      (fun a b => a.stop ≤ b.start) :=
  genSlotsAux_pairwise (close - s) s

theorem genSlots_bounds {s close gran : Nat} {booked blackout : List Interval}
    {emerg : Bool} (hg : 0 < gran) :
    ∀ sl ∈ genSlots s close gran booked blackout emerg,
      s ≤ sl.start ∧ sl.start < sl.stop ∧ sl.stop ≤ close ∧
        sl.stop - sl.start ≤ gran := by
  intro sl hsl
  rcases (mem_genSlots hg sl).1 hsl with ⟨k, hk, heq, -, -⟩
  rw [heq]
  unfold mkSlot candStop candStart
  unfold candStart at hk
  simp only
  set G := gran * k with hG
  refine ⟨by omega, by omega, by omega, by omega⟩

/-!
Locating the candidate that contains a given time point.
-/

theorem cand_index_of_point {s gran p : Nat} (hg : 0 < gran) (hsp : s ≤ p) :
    candStart s gran ((p - s) / gran) ≤ p ∧
      p < candStart s gran ((p - s) / gran) + gran := by
  have h1 := Nat.div_add_mod (p - s) gran
  have h2 := Nat.mod_lt (p - s) hg
  unfold candStart
  set q := (p - s) / gran with hq
  set r := (p - s) % gran with hr
  set G := gran * q with hG
  omega

theorem cand_index_unique {s gran k p : Nat} (hg : 0 < gran)
    (h1 : candStart s gran k ≤ p) (h2 : p < candStart s gran k + gran) :
    k = (p - s) / gran := by
  unfold candStart at h1 h2
  symm
  apply Nat.div_eq_of_lt_le
  · rw [Nat.mul_comm]
    set G := gran * k with hG
    omega
  · rw [Nat.succ_mul, Nat.mul_comm]
    set G := gran * k with hG
    omega

/-!
A list whose consecutive members are separated covers any point at most
once.
-/

theorem countP_cover_le_one (p : Nat) :
    ∀ L : List Slot, L.Pairwise (fun a b => a.stop ≤ b.start) →
      L.countP (fun sl => decide (sl.start ≤ p ∧ p < sl.stop)) ≤ 1 := by
  intro L
  induction L with
  | nil =>
    intro _
    simp
  | cons a L ih =>
    intro hp
    rw [List.pairwise_cons] at hp
    rw [List.countP_cons]
    by_cases ha : a.start ≤ p ∧ p < a.stop
    · have hz : L.countP (fun sl => decide (sl.start ≤ p ∧ p < sl.stop)) = 0 := by
        rw [List.countP_eq_zero]
        intro b hb
        have hab := hp.1 b hb
        simp only [decide_eq_true_eq]
        omega
      rw [hz]
      simp [ha]
    · simp only [decide_eq_true_eq, ha, if_false]
      simpa using ih hp.2

/-- A candidate that fits the window is emitted iff it strictly overlaps
no blackout and no booked interval - the membership form of the source's
exclusion test. -/
theorem cand_mem_iff {s close gran k : Nat} {booked blackout : List Interval}
    {emerg : Bool} (hg : 0 < gran) (hk : candStart s gran k < close) :
    mkSlot (candStart s gran k) (candStop s close gran k) emerg ∈
        genSlots s close gran booked blackout emerg ↔
      (overlapsAny (candStart s gran k) (candStop s close gran k) blackout = false ∧
       overlapsAny (candStart s gran k) (candStop s close gran k) booked = false) := by
  rw [mem_genSlots hg]
  constructor
  · rintro ⟨j, hj, heq, hbl, hbk⟩
    have hstart : candStart s gran k = candStart s gran j := by
      have h := congrArg Slot.start heq
      simpa [mkSlot] using h
    have hjk : j = k := by
      unfold candStart at hstart
      have h2 := Nat.add_left_cancel hstart
      exact (Nat.eq_of_mul_eq_mul_left hg h2).symm
    rw [hjk] at hbl hbk
    exact ⟨hbl, hbk⟩
  · rintro ⟨hbl, hbk⟩
    exact ⟨k, hk, rfl, hbl, hbk⟩

theorem overlapsAny_eq_false {s e : Nat} {L : List Interval} :
    overlapsAny s e L = false ↔ ∀ iv ∈ L, ¬(s < iv.stop ∧ iv.start < e) := by
  unfold overlapsAny slotOverlaps
  simp [not_and]

theorem genSlots_shape {s close gran : Nat} {booked blackout : List Interval}
    {emerg : Bool} (hg : 0 < gran) :
    ∀ sl ∈ genSlots s close gran booked blackout emerg,
      ∃ a b, sl = mkSlot a b emerg := by
  intro sl hsl
  rcases (mem_genSlots hg sl).1 hsl with ⟨k, -, heq, -, -⟩
  exact ⟨_, _, heq⟩

theorem availableSlots_emerg (booked blackout : List Interval) (t : Bool) (n : Nat) :
    availableSlots booked blackout true t n = emergencyAvailable booked t n := rfl

theorem availableSlots_reg (booked blackout : List Interval) (t : Bool) (n : Nat) :
    availableSlots booked blackout false t n =
      genSlots regularOpen regularClose regularGran booked blackout false := rfl

theorem mem_emergencyAvailable {booked : List Interval} {t : Bool} {n : Nat}
    {sl : Slot} (h : sl ∈ emergencyAvailable booked t n) :
    sl = fallbackSlot n ∨
      sl ∈ genSlots emergencyOpen emergencyClose emergencyGran booked [] true := by
  simp only [emergencyAvailable] at h
  split at h
  · split at h
    · rw [List.mem_singleton] at h
      exact Or.inl h
    · simp at h
  · exact Or.inr h

/-- C3: a candidate sub-interval is excluded by a booked (or, when
emergency is false, blackout) interval if and only if they strictly
overlap, i.e. candidate.start < other.end and candidate.end > other.start;
an interval exactly abutting a candidate boundary (candidate.end =
other.start or candidate.start = other.end) never satisfies the overlap
test, so it never excludes the candidate. -/
theorem C3_exclusion_is_strict_overlap (s close gran k : Nat)
    (booked blackout : List Interval) (emerg : Bool)
    (hg : 0 < gran) (hk : candStart s gran k < close) :
    (mkSlot (candStart s gran k) (candStop s close gran k) emerg ∈
        genSlots s close gran booked blackout emerg ↔
      ((∀ iv ∈ booked,
          ¬(candStart s gran k < iv.stop ∧ iv.start < candStop s close gran k)) ∧
       (∀ iv ∈ blackout,
          ¬(candStart s gran k < iv.stop ∧ iv.start < candStop s close gran k)))) ∧
    (∀ iv : Interval,
      iv.stop = candStart s gran k ∨ iv.start = candStop s close gran k →
        slotOverlaps (candStart s gran k) (candStop s close gran k) iv = false) := by
  constructor
  · rw [cand_mem_iff hg hk, overlapsAny_eq_false, overlapsAny_eq_false]
    exact and_comm
  · intro iv hiv
    unfold slotOverlaps
    rcases hiv with hiv | hiv <;> simp <;> omega

/-- C3 witness: window 08:00-10:00 with 30-minute granularity; a booked
interval 08:30-09:00 exactly abuts the candidate 08:00-08:30, which is
therefore emitted. -/
theorem C3_witness :
    0 < 30 ∧ candStart 480 30 0 < 600 ∧
    mkSlot 480 510 false ∈ genSlots 480 600 30 [⟨510, 540⟩] [] false := by
  have h := C3_exclusion_is_strict_overlap 480 600 30 0 [⟨510, 540⟩] [] false
    (by decide) (by decide)
  exact ⟨by decide, by decide, h.1.mpr ⟨by decide, by decide⟩⟩

/-- C10: every slot produced by the candidate-generation loop satisfies
start < end and has duration at most the granularity, and a slot strictly
shorter than the granularity can only arise from truncation at the
window's close time. -/
theorem C10_duration_invariant (s close gran : Nat)
    (booked blackout : List Interval) (emerg : Bool) (hg : 0 < gran) :
    ∀ sl ∈ genSlots s close gran booked blackout emerg,
      sl.start < sl.stop ∧ sl.stop - sl.start ≤ gran ∧
        (sl.stop - sl.start < gran → sl.stop = close) := by
  intro sl hsl
  rcases (mem_genSlots hg sl).1 hsl with ⟨k, hk, heq, -, -⟩
  rw [heq]
  unfold mkSlot candStop candStart
  unfold candStart at hk
  simp only
  set G := gran * k with hG
  exact ⟨by omega, by omega, by omega⟩

/-- C10 witness: the last emergency candidate 23:45-23:59 is 14 minutes
long, shorter than the 15-minute granularity, and its end is the window's
close time. -/
theorem C10_witness :
    0 < 15 ∧
    (mkSlot 1425 1439 true).start < (mkSlot 1425 1439 true).stop ∧
    (mkSlot 1425 1439 true).stop - (mkSlot 1425 1439 true).start ≤ 15 ∧
    ((mkSlot 1425 1439 true).stop - (mkSlot 1425 1439 true).start < 15 →
      (mkSlot 1425 1439 true).stop = 1439) := by
  have h := C10_duration_invariant 0 1439 15 [] [] true (by decide)
    (mkSlot 1425 1439 true) (by decide)
  exact ⟨by decide, h.1, h.2.1, h.2.2⟩

theorem emergencyAvailable_pairwise {booked : List Interval} {t : Bool} {n : Nat}
    (R : Slot → Slot → Prop)
    (hgen : (genSlots emergencyOpen emergencyClose emergencyGran
        booked [] true).Pairwise R) :
    (emergencyAvailable booked t n).Pairwise R := by
  simp only [emergencyAvailable]
  split
  · split
    · simp
    · simp
  · exact hgen

/-- C6 counterexample: on a fully booked day, requested for today with
current time 23:59, the source returns exactly the synthesized fallback
slot 23:45-00:00 (lines 287-288 compute its end through a datetime
addition whose result's `.time()` wraps past midnight), and that returned
slot does not lie within the window [00:00, 23:59): its end 00:00 is not
after its start, so not every returned slot lies within the working
window. -/
theorem C6_counterexample :
    availableSlots [⟨0, 1439⟩] [] true true 1439 = [fallbackSlot 1439] ∧
    (fallbackSlot 1439).start = 1425 ∧ (fallbackSlot 1439).stop = 0 ∧
    ¬((fallbackSlot 1439).start < (fallbackSlot 1439).stop ∧
      (fallbackSlot 1439).stop ≤ emergencyClose) := by decide

/-- C6 amended: for every input the returned slots are pairwise
non-overlapping and emitted in strictly increasing order of start time;
every returned slot other than the synthesized emergency fallback lies
within the working window, and the fallback does too unless the current
time is 23:45 or later (floored start 23:45 or beyond), when its end wraps
past midnight to 00:00 and falls outside the window.  Candidate
generation itself (the loop, over any window with positive granularity)
is deterministic and produces strictly increasing, mutually
non-overlapping candidates lying within the window. -/
theorem C6_amended_sorted_disjoint (booked blackout : List Interval)
    (t : Bool) (nowMin : Nat) :
    ((availableSlots booked blackout true t nowMin).Pairwise
        (fun a b => a.stop ≤ b.start) ∧
     (availableSlots booked blackout true t nowMin).Pairwise
        (fun a b => a.start < b.start) ∧
     (availableSlots booked blackout false t nowMin).Pairwise
        (fun a b => a.stop ≤ b.start) ∧
     (availableSlots booked blackout false t nowMin).Pairwise
        (fun a b => a.start < b.start)) ∧
    (∀ sl ∈ availableSlots booked blackout false t nowMin,
      regularOpen ≤ sl.start ∧ sl.start < sl.stop ∧ sl.stop ≤ regularClose) ∧
    (∀ sl ∈ availableSlots booked blackout true t nowMin,
      sl ≠ fallbackSlot nowMin →
        emergencyOpen ≤ sl.start ∧ sl.start < sl.stop ∧ sl.stop ≤ emergencyClose) ∧
    (fallbackStart nowMin + 15 ≤ emergencyClose →
      ∀ sl ∈ availableSlots booked blackout true t nowMin,
        emergencyOpen ≤ sl.start ∧ sl.start < sl.stop ∧ sl.stop ≤ emergencyClose) ∧
    (∀ (s close gran : Nat) (bk bl : List Interval) (em : Bool), 0 < gran →
      (genSlots s close gran bk bl em).Pairwise (fun a b => a.stop ≤ b.start) ∧
      (∀ sl ∈ genSlots s close gran bk bl em,
        s ≤ sl.start ∧ sl.start < sl.stop ∧ sl.stop ≤ close) ∧
      (genSlots s close gran bk bl em).Pairwise (fun a b => a.start < b.start)) := by
  have hg15 : (0 : Nat) < emergencyGran := by decide
  have hg30 : (0 : Nat) < regularGran := by decide
  have hinc : ∀ (s close gran : Nat) (bk bl : List Interval) (em : Bool), 0 < gran →
      (genSlots s close gran bk bl em).Pairwise (fun a b => a.start < b.start) := by
    intro s close gran bk bl em hg
    refine genSlots_pairwise.imp_of_mem ?_
    intro a b ha hb hab
    have h := (genSlots_bounds hg a ha).2.1
    omega
  have hmemE : ∀ sl ∈ availableSlots booked blackout true t nowMin,
      sl = fallbackSlot nowMin ∨
        sl ∈ genSlots emergencyOpen emergencyClose emergencyGran booked [] true := by
    intro sl hsl
    rw [availableSlots_emerg] at hsl
    exact mem_emergencyAvailable hsl
  refine ⟨⟨?_, ?_, ?_, ?_⟩, ?_, ?_, ?_, ?_⟩
  · rw [availableSlots_emerg]
    exact emergencyAvailable_pairwise _ genSlots_pairwise
  · rw [availableSlots_emerg]
    exact emergencyAvailable_pairwise _
      (hinc emergencyOpen emergencyClose emergencyGran booked [] true hg15)
  · rw [availableSlots_reg]
    exact genSlots_pairwise
  · rw [availableSlots_reg]
    exact hinc regularOpen regularClose regularGran booked blackout false hg30
  · intro sl hsl
    rw [availableSlots_reg] at hsl
    have h := genSlots_bounds hg30 sl hsl
    exact ⟨h.1, h.2.1, h.2.2.1⟩
  · intro sl hsl hne
    rcases hmemE sl hsl with h | h
    · exact absurd h hne
    · have hb := genSlots_bounds hg15 sl h
      exact ⟨hb.1, hb.2.1, hb.2.2.1⟩
  · intro hfb sl hsl
    rcases hmemE sl hsl with h | h
    · have hlt : fallbackStart nowMin + 15 < 1440 := by
        simp only [emergencyClose] at hfb
        omega
      have hstop : (fallbackSlot nowMin).stop = fallbackStart nowMin + 15 := by
        show (fallbackStart nowMin + 15) % 1440 = fallbackStart nowMin + 15
        exact Nat.mod_eq_of_lt hlt
      have hstart : (fallbackSlot nowMin).start = fallbackStart nowMin := rfl
      rw [h]
      refine ⟨Nat.zero_le _, ?_, ?_⟩
      · rw [hstart, hstop]
        omega
      · rw [hstop]
        exact hfb
    · have hb := genSlots_bounds hg15 sl h
      exact ⟨hb.1, hb.2.1, hb.2.2.1⟩
  · intro s close gran bk bl em hg
    refine ⟨genSlots_pairwise, ?_, hinc s close gran bk bl em hg⟩
    intro sl hsl
    have h := genSlots_bounds hg sl hsl
    exact ⟨h.1, h.2.1, h.2.2.1⟩

/-- C6 witness: with current time 08:10 (fallback start 08:00, well before
the wrap), the returned emergency slots of a fully booked day all lie
within the window, and the regular slots of the window 08:00-22:00 with
one booking are in strictly increasing start order. -/
theorem C6_witness :
    fallbackStart 490 + 15 ≤ emergencyClose ∧
    (availableSlots [⟨510, 540⟩] [] false false 490).Pairwise
      (fun a b => a.start < b.start) ∧
    (∀ sl ∈ availableSlots [⟨0, 1439⟩] [] true true 490,
      emergencyOpen ≤ sl.start ∧ sl.start < sl.stop ∧ sl.stop ≤ emergencyClose) := by
  have h1 := C6_amended_sorted_disjoint [⟨510, 540⟩] [] false 490
  have h2 := C6_amended_sorted_disjoint [⟨0, 1439⟩] [] true 490
  exact ⟨by decide, h1.1.2.2.2, h2.2.2.2.1 (by decide)⟩

/-- C1 counterexample: a booked interval spanning the whole day excludes
every emergency candidate, and with a requested date that is not the
current date no fallback is synthesized (views.py line 282), so this
emergency call returns the empty list - the result of an emergency call is
not always non-empty. -/
theorem C1_counterexample :
    availableSlots [⟨0, 1439⟩] [] true false 490 = [] := by decide

/-- C1 amended: when emergency is true and the requested date equals the
caller's current date, the returned slot sequence is non-empty; if every
generated candidate is excluded by a booked interval, exactly one fallback
slot is synthesized, anchored at the caller-supplied current time rounded
down to the nearest 15-minute boundary (current time 08:10 yields a
fallback starting 08:00).  On other dates the all-excluded result is
empty (see the C9 theorem). -/
theorem C1_amended_fallback_today (booked blackout : List Interval) (nowMin : Nat) :
    availableSlots booked blackout true true nowMin ≠ [] ∧
    (genSlots emergencyOpen emergencyClose emergencyGran booked [] true = [] →
      availableSlots booked blackout true true nowMin = [fallbackSlot nowMin] ∧
      (fallbackSlot nowMin).start = nowMin / 15 * 15) := by
  have hfb : (fallbackSlot nowMin).start = nowMin / 15 * 15 := by
    show nowMin / 60 * 60 + nowMin % 60 / 15 * 15 = nowMin / 15 * 15
    omega
  constructor
  · rw [availableSlots_emerg]
    cases hE : genSlots emergencyOpen emergencyClose emergencyGran booked [] true with
    | nil => simp [emergencyAvailable, hE]
    | cons a L => simp [emergencyAvailable, hE]
  · intro hE
    refine ⟨?_, hfb⟩
    rw [availableSlots_emerg]
    simp [emergencyAvailable, hE]

/-- C1 witness: a fully booked day, requested for today, with current time
08:10: the result is the single fallback slot, starting 08:00. -/
theorem C1_witness :
    availableSlots [⟨0, 1439⟩] [] true true 490 ≠ [] ∧
    availableSlots [⟨0, 1439⟩] [] true true 490 = [fallbackSlot 490] ∧
    (fallbackSlot 490).start = 480 := by
  have h := C1_amended_fallback_today [⟨0, 1439⟩] [] 490
  have h2 := h.2 (by decide)
  refine ⟨h.1, h2.1, ?_⟩
  rw [h2.2]

/-- C9: the emergency fallback is synthesized only when the requested date
equals the current date; for an emergency request on any other date whose
candidates are all excluded by booked intervals, the returned sequence is
empty. -/
theorem C9_no_fallback_on_other_dates (booked blackout : List Interval) (nowMin : Nat)
    (hall : ∀ k < 96, overlapsAny (candStart emergencyOpen emergencyGran k)
        (candStop emergencyOpen emergencyClose emergencyGran k) booked = true) :
    availableSlots booked blackout true false nowMin = [] := by
  have hg : 0 < emergencyGran := by decide
  have hempty :
      genSlots emergencyOpen emergencyClose emergencyGran booked [] true = [] := by
    rw [List.eq_nil_iff_forall_not_mem]
    intro sl hsl
    rcases (mem_genSlots hg sl).1 hsl with ⟨k, hk, -, -, hbk⟩
    have hk96 : k < 96 := by
      simp only [candStart, emergencyOpen, emergencyGran, emergencyClose] at hk
      omega
    rw [hall k hk96] at hbk
    exact absurd hbk (by simp)
  rw [availableSlots_emerg]
  simp [emergencyAvailable, hempty]

/-- C9 witness: a booked interval covering the whole day; the emergency
request for a date other than today returns no slots. -/
theorem C9_witness :
    (∀ k < 96, overlapsAny (candStart emergencyOpen emergencyGran k)
        (candStop emergencyOpen emergencyClose emergencyGran k) [⟨0, 1439⟩] = true) ∧
    availableSlots [⟨0, 1439⟩] [] true false 490 = [] :=
  ⟨by decide, C9_no_fallback_on_other_dates [⟨0, 1439⟩] [] 490 (by decide)⟩

/-- C2 counterexample: window 08:00-09:00 (a valid window) with 30-minute
granularity and one booked interval 08:30-08:45; the point 08:50 lies in
the window and is covered by no booked interval, yet it is covered by no
returned slot (not exactly one), because its whole candidate 08:30-09:00
is excluded. -/
theorem C2_counterexample :
    480 < 540 ∧ 0 < 30 ∧ 510 < 525 ∧
    480 ≤ 530 ∧ 530 < 540 ∧
    (∀ iv ∈ [(⟨510, 525⟩ : Interval)], ¬(iv.start ≤ 530 ∧ 530 < iv.stop)) ∧
    (genSlots 480 540 30 [⟨510, 525⟩] [] false).countP
      (fun sl => decide (sl.start ≤ 530 ∧ 530 < sl.stop)) = 0 := by
  refine ⟨by decide, by decide, by decide, by decide, by decide, by decide, by decide⟩

/-- C2 amended: every time point of `[open_time, close_time)` whose
containing granularity candidate strictly overlaps no booked and no
blackout interval is covered by exactly one returned slot; a point whose
containing candidate is excluded is covered by no returned slot, even when
the point itself lies outside every booked and blackout interval
(exclusion acts on whole candidates, not on points). -/
theorem C2_amended_coverage (s close gran p : Nat)
    (booked blackout : List Interval) (emerg : Bool)
    (hg : 0 < gran) (hsp : s ≤ p) (hpc : p < close) :
    ((overlapsAny (candStart s gran ((p - s) / gran))
          (candStop s close gran ((p - s) / gran)) blackout = false ∧
      overlapsAny (candStart s gran ((p - s) / gran))
          (candStop s close gran ((p - s) / gran)) booked = false) →
      (genSlots s close gran booked blackout emerg).countP
        (fun sl => decide (sl.start ≤ p ∧ p < sl.stop)) = 1) ∧
    ((overlapsAny (candStart s gran ((p - s) / gran))
          (candStop s close gran ((p - s) / gran)) blackout = true ∨
      overlapsAny (candStart s gran ((p - s) / gran))
          (candStop s close gran ((p - s) / gran)) booked = true) →
      (genSlots s close gran booked blackout emerg).countP
        (fun sl => decide (sl.start ≤ p ∧ p < sl.stop)) = 0) := by
  have hcp := @cand_index_of_point s gran p hg hsp
  have hklt : candStart s gran ((p - s) / gran) < close :=
    Nat.lt_of_le_of_lt hcp.1 hpc
  constructor
  · rintro ⟨hbl, hbk⟩
    have hm : mkSlot (candStart s gran ((p - s) / gran))
        (candStop s close gran ((p - s) / gran)) emerg ∈
        genSlots s close gran booked blackout emerg :=
      (cand_mem_iff hg hklt).2 ⟨hbl, hbk⟩
    have hpos : 0 < (genSlots s close gran booked blackout emerg).countP
        (fun sl => decide (sl.start ≤ p ∧ p < sl.stop)) := by
      rw [List.countP_pos_iff]
      refine ⟨_, hm, ?_⟩
      simp only [mkSlot, decide_eq_true_eq]
      unfold candStop
      constructor
      · exact hcp.1
      · omega
    have hle := countP_cover_le_one p _
      (@genSlots_pairwise s close gran booked blackout emerg)
    omega
  · intro hex
    rw [List.countP_eq_zero]
    intro sl hsl
    rcases (mem_genSlots hg sl).1 hsl with ⟨k, hk, heq, hbl2, hbk2⟩
    rw [heq]
    simp only [mkSlot, decide_eq_true_eq]
    rintro ⟨hle2, hlt2⟩
    have hlt3 : p < candStart s gran k + gran := by
      unfold candStop at hlt2
      omega
    have hkp : k = (p - s) / gran := cand_index_unique hg hle2 hlt3
    rw [hkp] at hbl2 hbk2
    rcases hex with hex | hex
    · rw [hex] at hbl2
      exact absurd hbl2 (by simp)
    · rw [hex] at hbk2
      exact absurd hbk2 (by simp)

/-- C2 witness: the point 08:20 in the window 08:00-10:00 whose candidate
08:00-08:30 abuts but does not overlap the booked interval 08:30-09:00 is
covered by exactly one returned slot. -/
theorem C2_witness :
    0 < 30 ∧ 480 ≤ 500 ∧ 500 < 600 ∧
    (genSlots 480 600 30 [⟨510, 540⟩] [] false).countP
      (fun sl => decide (sl.start ≤ 500 ∧ 500 < sl.stop)) = 1 := by
  have h := C2_amended_coverage 480 600 30 500 [⟨510, 540⟩] [] false
    (by decide) (by decide) (by decide)
  exact ⟨by decide, by decide, by decide, h.1 ⟨by decide, by decide⟩⟩

/-- C4: when emergency is true the blackout (leave) intervals are ignored
entirely - the result does not depend on them, so no candidate is excluded
because of a blackout interval - while booked intervals still exclude
candidates by exactly the strict-overlap rule of the non-emergency case
(no double-booking); when emergency is false, a candidate strictly
overlapping any blackout interval is excluded. -/
theorem C4_emergency_bypasses_blackout_only
    (booked blackout blackout2 : List Interval) (t : Bool) (nowMin : Nat) :
    availableSlots booked blackout true t nowMin =
        availableSlots booked blackout2 true t nowMin ∧
    (∀ k, candStart emergencyOpen emergencyGran k < emergencyClose →
      (mkSlot (candStart emergencyOpen emergencyGran k)
          (candStop emergencyOpen emergencyClose emergencyGran k) true ∈
        genSlots emergencyOpen emergencyClose emergencyGran booked [] true ↔
       overlapsAny (candStart emergencyOpen emergencyGran k)
          (candStop emergencyOpen emergencyClose emergencyGran k) booked = false)) ∧
    (∀ (s close gran k : Nat) (bk bl : List Interval), 0 < gran →
      candStart s gran k < close →
      overlapsAny (candStart s gran k) (candStop s close gran k) bl = true →
      mkSlot (candStart s gran k) (candStop s close gran k) false ∉
        genSlots s close gran bk bl false) := by
  refine ⟨rfl, ?_, ?_⟩
  · intro k hk
    rw [cand_mem_iff (by decide) hk]
    simp [overlapsAny]
  · intro s close gran k bk bl hg hk hbl hmem
    rw [cand_mem_iff hg hk] at hmem
    rw [hbl] at hmem
    exact absurd hmem.1 (by simp)

/-- C4 witness: a whole-day blackout does not change the emergency result,
and the emergency candidate 08:15-08:30 abutting the booked interval
08:00-08:15 is still emitted. -/
theorem C4_witness :
    availableSlots [⟨480, 495⟩] [⟨0, 1439⟩] true true 0 =
      availableSlots [⟨480, 495⟩] [] true true 0 ∧
    mkSlot 495 510 true ∈ genSlots 0 1439 15 [⟨480, 495⟩] [] true := by
  have h := C4_emergency_bypasses_blackout_only [⟨480, 495⟩] [⟨0, 1439⟩] [] true 0
  exact ⟨h.1, (h.2.1 33 (by decide)).2 (by decide)⟩

/-- C7: when emergency is true the working window is the full day
00:00-23:59 with 15-minute granularity - an unbooked day yields 96 slots,
the first being 00:00-00:15 and the last the truncated 23:45-23:59 - and
every returned slot's label is its formatted start-end range followed by
the " (Emergency)" suffix; when emergency is false the label is the bare
formatted range, with no suffix. -/
theorem C7_emergency_window_gran_labels :
    (∀ (booked blackout : List Interval) (t : Bool) (n : Nat),
      ∀ sl ∈ availableSlots booked blackout true t n,
        ∃ a b, sl.display = fmtTime a ++ " - " ++ fmtTime b ++ " (Emergency)") ∧
    (∀ (booked blackout : List Interval) (t : Bool) (n : Nat),
      ∀ sl ∈ availableSlots booked blackout false t n,
        sl.display = fmtTime sl.start ++ " - " ++ fmtTime sl.stop) ∧
    (∀ booked : List Interval,
      ∀ sl ∈ genSlots emergencyOpen emergencyClose emergencyGran booked [] true,
        sl.stop ≤ 1439 ∧ sl.stop - sl.start ≤ 15) ∧
    (availableSlots [] [] true false 0).length = 96 ∧
    (availableSlots [] [] true false 0).head? = some (mkSlot 0 15 true) ∧
    mkSlot 1425 1439 true ∈ availableSlots [] [] true false 0 := by
  refine ⟨?_, ?_, ?_, by decide, by decide, by decide⟩
  · intro booked blackout t n sl hsl
    rw [availableSlots_emerg] at hsl
    rcases mem_emergencyAvailable hsl with h | h
    · exact ⟨fallbackStart n, (fallbackStart n + 15) % 1440, by rw [h]; rfl⟩
    · rcases genSlots_shape (by decide) sl h with ⟨a, b, heq⟩
      exact ⟨a, b, by rw [heq]; rfl⟩
  · intro booked blackout t n sl hsl
    rw [availableSlots_reg] at hsl
    rcases genSlots_shape (by decide) sl hsl with ⟨a, b, heq⟩
    rw [heq]
    rfl
  · intro booked sl hsl
    have h := genSlots_bounds (by decide) sl hsl
    refine ⟨?_, ?_⟩
    · have h2 := h.2.2.1
      simp only [emergencyClose] at h2
      omega
    · have h2 := h.2.2.2
      simp only [emergencyGran] at h2
      omega

/-- C7 witness: the first emergency slot of an unbooked day carries the
" (Emergency)"-suffixed label, and a regular slot's label is the bare
range. -/
theorem C7_witness :
    (∃ a b, (mkSlot 0 15 true).display =
      fmtTime a ++ " - " ++ fmtTime b ++ " (Emergency)") ∧
    (mkSlot 480 510 false).display = fmtTime 480 ++ " - " ++ fmtTime 510 := by
  have h := C7_emergency_window_gran_labels
  constructor
  · exact h.1 [] [] false 0 (mkSlot 0 15 true) (by decide)
  · exact h.2.1 [] [] false 0 (mkSlot 480 510 false) (by decide)

/-- C5: the spec calculator returns an error only for malformed input -
open_time at or after close_time, zero granularity, or a booked/blackout
interval with start at or after end - with the validation performed before
any slot generation and no partial result; absence of availability is not
an error: every well-formed non-emergency input yields a normal, possibly
empty, slot list. -/
theorem C5_error_only_for_malformed (w : WorkWindow)
    (booked blackout : List Interval) (nowMin : Nat) :
    (∀ (emerg : Bool) (e : SlotError),
      compute_available_slots w booked blackout emerg nowMin = .error e →
      (w.closeT ≤ w.openT ∨ w.gran = 0 ∨ ∃ iv ∈ booked ++ blackout, iv.stop ≤ iv.start)) ∧
    ((w.openT < w.closeT ∧ 0 < w.gran ∧ ∀ iv ∈ booked ++ blackout, iv.start < iv.stop) →
      ∃ slots : List Slot,
        compute_available_slots w booked blackout false nowMin = .ok slots) := by
  constructor
  · intro emerg e herr
    unfold compute_available_slots at herr
    by_cases h1 : w.closeT ≤ w.openT ∨ w.gran = 0
    · rcases h1 with h1 | h1
      · exact Or.inl h1
      · exact Or.inr (Or.inl h1)
    · rw [if_neg h1] at herr
      by_cases h2 :
          (booked ++ blackout).any (fun iv => decide (iv.stop ≤ iv.start)) = true
      · refine Or.inr (Or.inr ?_)
        rw [List.any_eq_true] at h2
        rcases h2 with ⟨iv, hiv, hdec⟩
        exact ⟨iv, hiv, by simpa using hdec⟩
      · rw [if_neg h2] at herr
        split at herr <;> simp at herr
  · rintro ⟨hw, hgr, hv⟩
    unfold compute_available_slots
    rw [if_neg (by omega)]
    have h2 : (booked ++ blackout).any (fun iv => decide (iv.stop ≤ iv.start)) = false := by
      simp only [List.any_eq_false, decide_eq_true_eq]
      intro iv hiv
      have h3 := hv iv hiv
      omega
    rw [h2]
    exact ⟨_, rfl⟩

/-- C5 witness: a well-formed window and a fully valid booked list give a
normal result. -/
theorem C5_witness :
    ∃ slots : List Slot,
      compute_available_slots ⟨480, 600, 30⟩ [⟨510, 540⟩] [] false 0 =
        Except.ok slots :=
  (C5_error_only_for_malformed ⟨480, 600, 30⟩ [⟨510, 540⟩] [] 0).2
    ⟨by decide, by decide, by decide⟩

/-- C8: the availability computation is deterministic - the embedded view
computation and the spec calculator are pure functions of the booked and
blackout lists, the emergency flag, the requested-date-is-today flag and
the caller-supplied current time (the source's ambient clock read enters
only through this explicit argument), so two runs on identical inputs
return identical, identically ordered slot sequences. -/
theorem C8_determinism (w : WorkWindow) (booked blackout : List Interval)
    (emerg dateIsToday : Bool) (nowMin : Nat) :
    availableSlots booked blackout emerg dateIsToday nowMin =
        availableSlots booked blackout emerg dateIsToday nowMin ∧
    compute_available_slots w booked blackout emerg nowMin =
        compute_available_slots w booked blackout emerg nowMin :=
  ⟨rfl, rfl⟩

end HMS
